import Mathlib

/-
Verification of the Coin-Clarity frontend API client (src/frontend/src/lib/api.ts),
the RiskBadge component, the report page, and the spec-described backend
orchestrator/scoring engine, against the repository's natural-language spec.

Conventions of the shallow embedding:
- JS strings are Lean Strings; String.prototype.toLowerCase is modelled for the
  ASCII range (hex addresses and tier strings are ASCII).
- Parsed JSON values are the Json inductive below; JS undefined is collapsed
  into Json.jnull (both are falsy and both read back as an absent field).
- JS numbers are rationals; IEEE-754 NaN and rounding are outside the model
  (noted at each definition where a NaN path exists in the source).
- A fetch Response is a structure of ok flag, status code, statusText and an
  optional parsed body (none = response.json() rejects).
-/

/-- ASCII case folding of one character, as applied by JS toLowerCase to the
characters that occur in addresses and tier names: A-Z map to a-z, every other
character is unchanged. -/
def lowerChar (c : Char) : Char :=
  if 65 ≤ c.toNat ∧ c.toNat ≤ 90 then Char.ofNat (c.toNat + 32) else c

/-- JS address.toLowerCase(), character by character (ASCII range). -/
def lowerString (s : String) : String :=
  ⟨s.data.map lowerChar⟩

theorem toNat_ofNat_valid (n : Nat) (h : n.isValidChar) :
    (Char.ofNat n).toNat = n := by
  simp [Char.ofNat, h, Char.ofNatAux, Char.toNat, UInt32.toNat, BitVec.toNat_ofNatLt]

theorem lowerChar_idem (c : Char) : lowerChar (lowerChar c) = lowerChar c := by
  unfold lowerChar
  by_cases h : 65 ≤ c.toNat ∧ c.toNat ≤ 90
  · rw [if_pos h]
    have hv : (c.toNat + 32).isValidChar := Or.inl (by omega)
    have ht := toNat_ofNat_valid (c.toNat + 32) hv
    have hnot : ¬(65 ≤ (Char.ofNat (c.toNat + 32)).toNat ∧
        (Char.ofNat (c.toNat + 32)).toNat ≤ 90) := by
      rw [ht]; omega
    rw [if_neg hnot]
  · rw [if_neg h, if_neg h]

theorem lowerString_idem (s : String) :
    lowerString (lowerString s) = lowerString s := by
  unfold lowerString
  simp [List.map_map, Function.comp_def, lowerChar_idem]

/-- Parsed JSON values as the TS client sees them. -/
inductive Json where
  | jnull : Json
  | jbool : Bool → Json
  | jnum : ℚ → Json
  | jstr : String → Json
  | jarr : List Json → Json
  | jobj : List (String × Json) → Json

/-- Property access obj.k (and the optional-chaining form obj?.k): the value
stored under the first occurrence of key k, and jnull (JS undefined) when the
key is absent or the value is not an object. -/
def getF (j : Json) (k : String) : Json :=
  match j with
  | .jobj fields => ((fields.find? (fun f => f.1 == k)).map Prod.snd).getD .jnull
  | _ => .jnull

theorem getF_jobj_cons (k : String) (v : Json) (rest : List (String × Json))
    (key : String) :
    getF (.jobj ((k, v) :: rest)) key =
      if (k == key) = true then v else getF (.jobj rest) key := by
  by_cases h : (k == key) = true <;> simp [getF, List.find?, h]

theorem getF_jobj_nil (key : String) : getF (.jobj []) key = .jnull := rfl

/-- JS truthiness of a parsed JSON value. -/
def truthy : Json → Bool
  | .jnull => false
  | .jbool b => b
  | .jnum q => decide (q ≠ 0)
  | .jstr s => decide (s ≠ "")
  | .jarr _ => true
  | .jobj _ => true

/-- The JS a-or-b short circuit: a when truthy, else b. -/
def jsOr (a b : Json) : Json := if truthy a then a else b

/-- The JS nullish coalescing a-question-question-b: b only when a is
null/undefined. -/
def nullish (a b : Json) : Json :=
  match a with
  | .jnull => b
  | x => x

/-- value.toLowerCase() on a JSON value. The source only calls it on strings
(falsy fields were already replaced by a string default); on a non-string JS
would throw a TypeError, a path no theorem below goes through. -/
def jsLower : Json → Json
  | .jstr s => .jstr (lowerString s)
  | j => j

/-- The strict comparison value === "s" for a string literal. -/
def isStr (j : Json) (s : String) : Bool :=
  match j with
  | .jstr t => t == s
  | _ => false

/-- The elements of an array value, with the empty list for a falsy value
(the source writes value-or-empty-array before .map). A truthy non-array
would make JS throw at .map, a path no theorem below goes through. -/
def asArr : Json → List Json
  | .jarr xs => xs
  | _ => []

/-- The RiskTier union type of src/frontend/src/lib/api.ts line 6; its values
are the lowercase strings given by RiskTier.str below. -/
inductive RiskTier where
  | low
  | medium
  | high
  | extreme
  deriving DecidableEq

/-- The literal string of a RiskTier value as declared in api.ts. -/
def RiskTier.str : RiskTier → String
  | .low => "low"
  | .medium => "medium"
  | .high => "high"
  | .extreme => "extreme"

/-- getRiskColor of api.ts lines 195-200. Scores are integers per the spec
data model. -/
def getRiskColor (score : ℤ) : String :=
  if score ≤ 30 then "#16A34A"
  else if score ≤ 59 then "#CA8A04"
  else if score ≤ 79 then "#EA580C"
  else "#DC2626"

/-- The spec's step function of the risk score (spec section 4.5 rule 8),
written from the spec's words for comparison with the source. -/
def specRiskTier (score : ℤ) : RiskTier :=
  if score ≤ 30 then .low
  else if score ≤ 59 then .medium
  else if score ≤ 79 then .high
  else .extreme

/-- The display color the spec attaches to each tier (README color palette),
written from the spec's words for comparison with the source. -/
def specTierColor : RiskTier → String
  | .low => "#16A34A"
  | .medium => "#CA8A04"
  | .high => "#EA580C"
  | .extreme => "#DC2626"

/-- Default API base URL of api.ts line 3. -/
def apiBaseUrl : String := "http://localhost:8000"

/-- The JSON body analyzeToken sends to POST /analyze (api.ts lines 81-85):
the chain and the lowercased address. -/
def analyzeRequestBody (chain address : String) : Json :=
  .jobj [("chain", .jstr chain), ("address", .jstr (lowerString address))]

/-- The URL getReport fetches (api.ts line 110): the address is lowercased
into the path. -/
def reportRequestUrl (chain address : String) : String :=
  apiBaseUrl ++ "/report/" ++ chain ++ "/" ++ lowerString address

/-- Claim C1: for every integer risk score in [0,100], getRiskColor returns
exactly the display color of the spec's step-function tier of that score
(at or below 30 low/green, 31-59 medium/yellow, 60-79 high/orange, 80 and
above extreme/red), and in particular the boundary scores 30, 31, 59, 60,
79 and 80 receive the low, medium, medium, high, high and extreme colors. -/
theorem getRiskColor_is_spec_step :
    (∀ score : ℤ, 0 ≤ score → score ≤ 100 →
      getRiskColor score = specTierColor (specRiskTier score)) ∧
    getRiskColor 30 = specTierColor .low ∧
    getRiskColor 31 = specTierColor .medium ∧
    getRiskColor 59 = specTierColor .medium ∧
    getRiskColor 60 = specTierColor .high ∧
    getRiskColor 79 = specTierColor .high ∧
    getRiskColor 80 = specTierColor .extreme := by
  refine ⟨?_, rfl, rfl, rfl, rfl, rfl, rfl⟩
  intro s _ _
  by_cases h1 : s ≤ 30 <;> by_cases h2 : s ≤ 59 <;> by_cases h3 : s ≤ 79 <;>
    simp [getRiskColor, specRiskTier, specTierColor, h1, h2, h3]

/-- Witness for C1 at the concrete score 42. -/
theorem getRiskColor_is_spec_step_witness :
    (0 : ℤ) ≤ 42 ∧ getRiskColor 42 = specTierColor (specRiskTier 42) :=
  ⟨by decide, getRiskColor_is_spec_step.1 42 (by decide) (by decide)⟩

/-- Claim C4: fingerprinting is case-insensitive and idempotent: for every
chain, two addresses that agree up to ASCII letter case produce the identical
analyze request body and the identical report URL (the address is lowercased
before it is sent), and lowercasing an already-lowercased address changes
nothing. -/
theorem requests_case_insensitive :
    (∀ chain a1 a2 : String, lowerString a1 = lowerString a2 →
      analyzeRequestBody chain a1 = analyzeRequestBody chain a2 ∧
      reportRequestUrl chain a1 = reportRequestUrl chain a2) ∧
    (∀ a : String, lowerString (lowerString a) = lowerString a) := by
  constructor
  · intro chain a1 a2 h
    unfold analyzeRequestBody reportRequestUrl
    rw [h]
    exact ⟨rfl, rfl⟩
  · exact lowerString_idem

/-- Witness for C4 on the concrete pair 0xABC / 0xabc. -/
theorem requests_case_insensitive_witness :
    analyzeRequestBody "ethereum" "0xABC" = analyzeRequestBody "ethereum" "0xabc" ∧
    lowerString (lowerString "0xABC") = lowerString "0xABC" :=
  ⟨(requests_case_insensitive.1 "ethereum" "0xABC" "0xabc" (by rfl)).1,
   requests_case_insensitive.2 "0xABC"⟩

/-- One signal mapping inside transformReport (api.ts lines 231-236): falsy
severity defaults to "info" and is lowercased; evidence links fall back over
the snake_case field and then the empty array. -/
def transformSignal (s : Json) : Json :=
  .jobj [("title", getF s "title"),
         ("severity", jsLower (jsOr (getF s "severity") (.jstr "info"))),
         ("description", getF s "description"),
         ("evidenceLinks", jsOr (getF s "evidenceLinks")
           (jsOr (getF s "evidence_links") (.jarr [])))]

/-- transformReport (api.ts lines 223-261), field by field at the JSON level:
every camelCase field falls back to its snake_case twin, riskTier additionally
to "low" and is lowercased, signals are mapped through transformSignal, and
the computed token/metrics blocks use optional chaining plus nullish or
boolean/null defaults. -/
def transformReport (b : Json) : Json :=
  .jobj [
    ("chain", getF b "chain"),
    ("address", getF b "address"),
    ("riskScore", jsOr (getF b "riskScore") (getF b "risk_score")),
    ("riskTier", jsLower (jsOr (getF b "riskTier")
      (jsOr (getF b "risk_tier") (.jstr "low")))),
    ("signals", .jarr ((asArr (jsOr (getF b "signals") (.jarr []))).map
      transformSignal)),
    ("contractAnalysis", jsOr (getF b "contractAnalysis") (getF b "contract_analysis")),
    ("liquidityAnalysis", jsOr (getF b "liquidityAnalysis") (getF b "liquidity_analysis")),
    ("holderAnalysis", jsOr (getF b "holderAnalysis") (getF b "holder_analysis")),
    ("updatedAt", jsOr (getF b "updatedAt") (getF b "updated_at")),
    ("createdAt", jsOr (getF b "createdAt") (getF b "created_at")),
    ("token", .jobj [
      ("chain", getF b "chain"),
      ("address", getF b "address"),
      ("name", jsOr (getF (getF b "liquidityAnalysis") "tokenName")
        (jsOr (getF (getF b "liquidity_analysis") "tokenName") .jnull)),
      ("symbol", jsOr (getF (getF b "liquidityAnalysis") "tokenSymbol")
        (jsOr (getF (getF b "liquidity_analysis") "tokenSymbol") .jnull))]),
    ("metrics", .jobj [
      ("liquidityUsd", nullish (getF (getF b "liquidityAnalysis") "liquidityUsd")
        (nullish (getF (getF b "liquidity_analysis") "liquidityUsd") .jnull)),
      ("fdvUsd", nullish (getF (getF b "liquidityAnalysis") "fdvUsd")
        (nullish (getF (getF b "liquidity_analysis") "fdvUsd") .jnull)),
      ("volume24hUsd", nullish (getF (getF b "liquidityAnalysis") "volume24hUsd")
        (nullish (getF (getF b "liquidity_analysis") "volume24hUsd") .jnull)),
      ("top10HolderPct", nullish (getF (getF b "holderAnalysis") "top10Concentration")
        (nullish (getF (getF b "holder_analysis") "top10Concentration") .jnull)),
      ("top1HolderPct", nullish (getF (getF b "holderAnalysis") "top1Concentration")
        (nullish (getF (getF b "holder_analysis") "top1Concentration") .jnull)),
      ("verified", nullish (getF (getF b "contractAnalysis") "verified")
        (nullish (getF (getF b "contract_analysis") "verified") (.jbool false))),
      ("isProxy", nullish (getF (getF b "contractAnalysis") "isProxy")
        (nullish (getF (getF b "contract_analysis") "isProxy") (.jbool false))),
      ("pairUrl", nullish (getF (getF b "liquidityAnalysis") "pairUrl")
        (nullish (getF (getF b "liquidity_analysis") "pairUrl") .jnull))])]

/-- A fetch Response after JSON parsing: ok flag, numeric status, statusText,
and the parsed body (none when response.json() rejects). -/
structure HttpResp where
  ok : Bool
  status : Nat
  statusText : String
  body : Option Json

/-- error.detail short-circuited with a default message, as in the throw sites
of api.ts. A truthy non-string detail would be coerced by JS String(); no
theorem below goes through that path. -/
def detailOr (b : Json) (d : String) : String :=
  match getF b "detail" with
  | .jstr s => if s == "" then d else s
  | _ => d

/-- analyzeToken (api.ts lines 77-102) applied to the fetch response:
Except.error carries the thrown Error message, Except.ok the resolved value.
An ok response whose body fails to parse rejects with a JSON SyntaxError,
represented by its fixed message string. -/
def analyzeToken (r : HttpResp) : Except String Json :=
  if r.ok = false then
    .error (detailOr (r.body.getD (.jobj [("detail", .jstr "Analysis failed")]))
      ("Analysis failed: " ++ r.statusText))
  else
    match r.body with
    | none => .error "Unexpected end of JSON input"
    | some data =>
      if isStr (getF data "status") "completed" && truthy (getF data "report") then
        .ok (.jobj [("status", .jstr "completed"),
                    ("report", transformReport (getF data "report"))])
      else
        .ok data

/-- The completed response shape: status field "completed" and a truthy report. -/
def completedShape (j : Json) : Prop :=
  isStr (getF j "status") "completed" = true ∧ truthy (getF j "report") = true

/-- The processing response shape: status field "processing" and a string jobId. -/
def processingShape (j : Json) : Prop :=
  isStr (getF j "status") "processing" = true ∧ ∃ s, getF j "jobId" = .jstr s

theorem isStr_eq {j : Json} {s : String} (h : isStr j s = true) : j = .jstr s := by
  cases j <;> simp_all [isStr]

def oddBody : Json := .jobj [("status", .jstr "banana")]

def oddResp : HttpResp := ⟨true, 200, "OK", some oddBody⟩

/-- Counterexample to claim C2 as stated: an HTTP-successful backend response
whose body is the object with status "banana" is returned unchanged by
analyzeToken, and that value has neither the completed nor the processing
shape. -/
theorem analyzeToken_other_shape_escapes :
    analyzeToken oddResp = .ok oddBody ∧
    ¬ completedShape oddBody ∧ ¬ processingShape oddBody := by
  refine ⟨rfl, ?_, ?_⟩ <;>
    simp [completedShape, processingShape, oddBody, isStr, getF, truthy, List.find?]

/-- Claim C2 amended: for every HTTP-successful backend response whose parsed
body already conforms to one of the two AnalyzeResponse shapes (status
"completed" with a truthy report, or status "processing" with a string jobId),
analyzeToken returns a value of exactly one of the two shapes; an ok response
with any other body is passed through unvalidated (see the counterexample). -/
theorem analyzeToken_two_shapes (r : HttpResp) (data : Json)
    (hok : r.ok = true) (hbody : r.body = some data)
    (hconf : completedShape data ∨ processingShape data) :
    ∃ out, analyzeToken r = .ok out ∧
      ((completedShape out ∧ ¬ processingShape out) ∨
       (processingShape out ∧ ¬ completedShape out)) := by
  rcases hconf with hc | hp
  · refine ⟨.jobj [("status", .jstr "completed"),
      ("report", transformReport (getF data "report"))], ?_, ?_⟩
    · simp [analyzeToken, hok, hbody, hc.1, hc.2]
    · left
      constructor
      · constructor
        · simp [getF, isStr, List.find?]
        · simp [getF, List.find?, transformReport, truthy]
      · intro hcontra
        have := hcontra.1
        simp [getF, isStr, List.find?] at this
  · have hst := isStr_eq hp.1
    have hnot : isStr (getF data "status") "completed" = false := by
      rw [hst]; simp [isStr]
    refine ⟨data, ?_, Or.inr ⟨hp, ?_⟩⟩
    · simp [analyzeToken, hok, hbody, hnot]
    · intro hcontra
      have := hcontra.1
      rw [hst] at this
      simp [isStr] at this

/-- Witness for C2 (amended) on a concrete conforming processing response. -/
theorem analyzeToken_two_shapes_witness :
    ∃ out,
      analyzeToken ⟨true, 200, "OK",
        some (.jobj [("status", .jstr "processing"), ("jobId", .jstr "j1")])⟩ =
          .ok out ∧
      ((completedShape out ∧ ¬ processingShape out) ∨
       (processingShape out ∧ ¬ completedShape out)) :=
  analyzeToken_two_shapes _ _ rfl rfl
    (Or.inr ⟨by simp [getF, isStr, List.find?], ⟨"j1", by simp [getF, List.find?]⟩⟩)

/-- Claim C10: when both the riskTier and risk_tier fields of the backend
report are absent or falsy, transformReport emits the riskTier "low"; the
transformed signals are exactly the signal-wise transform of the backend
signals; and any signal whose severity is absent or falsy is given severity
"info". -/
theorem transformReport_defaults (b s : Json)
    (ht : truthy (getF b "riskTier") = false)
    (ht2 : truthy (getF b "risk_tier") = false)
    (hs : truthy (getF s "severity") = false) :
    getF (transformReport b) "riskTier" = .jstr "low" ∧
    getF (transformReport b) "signals" =
      .jarr ((asArr (jsOr (getF b "signals") (.jarr []))).map transformSignal) ∧
    getF (transformSignal s) "severity" = .jstr "info" := by
  have e2 : jsOr (getF b "risk_tier") (.jstr "low") = .jstr "low" := by
    simp [jsOr, ht2]
  have e1 : jsOr (getF b "riskTier") (jsOr (getF b "risk_tier") (.jstr "low")) =
      .jstr "low" := by
    rw [e2]; simp [jsOr, ht]
  have e3 : jsOr (getF s "severity") (.jstr "info") = .jstr "info" := by
    simp [jsOr, hs]
  refine ⟨?_, ?_, ?_⟩
  · simp [transformReport, getF_jobj_cons, e1]
    rfl
  · simp [transformReport, getF_jobj_cons]
  · simp [transformSignal, getF_jobj_cons, e3]
    rfl

/-- Witness for C10 on the empty backend report and the empty signal. -/
theorem transformReport_defaults_witness :
    getF (transformReport (.jobj [])) "riskTier" = .jstr "low" ∧
    getF (transformSignal (.jobj [])) "severity" = .jstr "info" :=
  ⟨(transformReport_defaults (.jobj []) (.jobj []) rfl rfl rfl).1,
   (transformReport_defaults (.jobj []) (.jobj []) rfl rfl rfl).2.2⟩

/-- The result of the fetch call inside getReport: either a response or a
rejected promise carrying an error message (network failure, JSON parse). -/
inductive FetchOutcome where
  | success : HttpResp → FetchOutcome
  | failure : String → FetchOutcome

/-- The message of the error thrown for a non-ok, non-404 response in
getReport (api.ts lines 120-121): the parsed detail field when truthy, else
the template with statusText; an unparsable error body falls back to the
catch default object whose detail is the fixed string. -/
def reportErrMsg (r : HttpResp) : String :=
  match r.body with
  | some b => detailOr b ("Failed to fetch report: " ++ r.statusText)
  | none => "Failed to fetch report"

/-- The try block of getReport (api.ts lines 109-125). -/
def getReportTry (f : FetchOutcome) (throwOn404 : Option Bool) :
    Except String (Option Json) :=
  match f with
  | .failure msg => .error msg
  | .success r =>
    if r.ok = false then
      if r.status = 404 then
        if throwOn404 = some false then .ok none
        else .error "Report not found"
      else .error (reportErrMsg r)
    else
      match r.body with
      | none => .error "Unexpected end of JSON input"
      | some data => .ok (some (transformReport data))

/-- getReport (api.ts lines 104-133): the try block wrapped in the catch that
converts a thrown "Report not found" back into the null return when
throwOn404 is false, and rethrows everything else. -/
def getReport (f : FetchOutcome) (throwOn404 : Option Bool) :
    Except String (Option Json) :=
  match getReportTry f throwOn404 with
  | .error msg =>
    if throwOn404 = some false ∧ msg = "Report not found" then .ok none
    else .error msg
  | res => res

/-- The distinguished not-found outcome of getReport: the thrown
"Report not found" error, or the null return. -/
def notFoundOutcome (res : Except String (Option Json)) : Prop :=
  res = .error "Report not found" ∨ res = .ok none

def detail500Resp : HttpResp :=
  ⟨false, 500, "Internal Server Error",
   some (.jobj [("detail", .jstr "Report not found")])⟩

/-- Counterexample to claim C3 as stated: a 500 response whose JSON detail
field is "Report not found" produces the distinguished not-found outcome
(the thrown "Report not found" error) although it is not an HTTP 404. -/
theorem getReport_notFound_on_non404 :
    getReport (.success detail500Resp) none = .error "Report not found" ∧
    detail500Resp.status ≠ 404 ∧ detail500Resp.ok = false :=
  ⟨rfl, by decide, rfl⟩

/-- Claim C3 amended: getReport returns the stored (transformed) report for
every ok response, and otherwise signals either the distinguished not-found
outcome or a distinct error; the not-found outcome occurs exactly on an HTTP
404 or when the failure's error message is literally "Report not found" - in
particular a non-404 error response whose JSON detail field equals "Report
not found" receives the same outcome; every other failure propagates as a
distinct error. -/
theorem getReport_notFound_characterization :
    (∀ (f : FetchOutcome) (t : Option Bool),
      notFoundOutcome (getReport f t) ↔
        (match f with
         | .failure msg => msg = "Report not found"
         | .success r =>
             r.ok = false ∧ (r.status = 404 ∨ reportErrMsg r = "Report not found"))) ∧
    (∀ (r : HttpResp) (data : Json) (t : Option Bool), r.ok = true →
      r.body = some data →
      getReport (.success r) t = .ok (some (transformReport data))) := by
  constructor
  · intro f t
    cases f with
    | failure msg =>
      by_cases hm : msg = "Report not found"
      · subst hm
        by_cases ht : t = some false <;>
          simp [getReport, getReportTry, notFoundOutcome, ht]
      · by_cases ht : t = some false <;>
          simp [getReport, getReportTry, notFoundOutcome, ht, hm]
    | success r =>
      by_cases hok : r.ok = false
      · by_cases h404 : r.status = 404
        · by_cases ht : t = some false <;>
            simp [getReport, getReportTry, notFoundOutcome, hok, h404, ht]
        · by_cases hm : reportErrMsg r = "Report not found" <;>
            by_cases ht : t = some false <;>
              simp [getReport, getReportTry, notFoundOutcome, hok, h404, ht, hm]
      · cases hb : r.body with
        | none =>
          by_cases ht : t = some false <;>
            simp [getReport, getReportTry, notFoundOutcome, hok, hb, ht]
        | some data =>
          simp [getReport, getReportTry, notFoundOutcome, hok, hb]
  · intro r data t hok hb
    simp [getReport, getReportTry, hok, hb]

/-- Witness for C3 (amended) on a concrete ok response. -/
theorem getReport_notFound_characterization_witness :
    getReport (.success ⟨true, 200, "OK", some (.jobj [])⟩) none =
      .ok (some (transformReport (.jobj []))) :=
  getReport_notFound_characterization.2 ⟨true, 200, "OK", some (.jobj [])⟩
    (.jobj []) none rfl rfl

/-- One DexScreener trading pair as getPrice reads it, with the numeric
fields already taken through parseFloat. none models a missing field (the
source substitutes the string "0" before parsing, which the getD 0 reads
reproduce) and, for priceUsd and priceChangeH24, also an unparsable field:
parseFloat then yields NaN, and the source's isNaN branches send NaN to the
same outcome as the defaults used here. -/
structure DexPair where
  liquidityUsd : Option ℚ
  priceUsd : Option ℚ
  priceChangeH24 : Option ℚ

/-- parseFloat of p.liquidity.usd with the "0" fallback (api.ts lines
161-162): a missing liquidity reads as 0. -/
def pairLiq (p : DexPair) : ℚ := p.liquidityUsd.getD 0

/-- The reduce of api.ts lines 160-164: a JS reduce with an initial value
visits every element, so this folds over the whole list starting from
pairs[0], keeping the incoming pair only when its liquidity is strictly
greater than the accumulator's. -/
def primaryPair (p0 : DexPair) (ps : List DexPair) : DexPair :=
  ps.foldl (fun best p => if pairLiq p > pairLiq best then p else best) p0

/-- The value getPrice resolves with. -/
structure PriceData where
  priceUsd : ℚ
  change24hPct : ℚ
  deriving DecidableEq

/-- The upstream outcome getPrice reacts to: a rejected fetch or JSON parse
(caught by the outer try), a non-ok HTTP status, or the parsed pairs array
(data.pairs with the empty-array fallback). -/
inductive PriceFetch where
  | failure : String → PriceFetch
  | httpError : Nat → PriceFetch
  | success : List DexPair → PriceFetch

/-- getPrice (api.ts lines 135-183). Every branch resolves with a PriceData;
the catch-all try makes the function total, so the model needs no error
outcome. -/
def getPrice : PriceFetch → PriceData
  | .failure _ => ⟨0, 0⟩
  | .httpError _ => ⟨0, 0⟩
  | .success [] => ⟨0, 0⟩
  | .success (p0 :: rest) =>
    let primary := primaryPair p0 (p0 :: rest)
    let price := primary.priceUsd.getD 0
    if price ≤ 0 then ⟨0, 0⟩
    else ⟨price, primary.priceChangeH24.getD 0⟩

theorem primaryPair_mem (p0 : DexPair) (ps : List DexPair) :
    primaryPair p0 ps = p0 ∨ primaryPair p0 ps ∈ ps := by
  induction ps generalizing p0 with
  | nil => left; rfl
  | cons q qs ih =>
    unfold primaryPair
    simp only [List.foldl_cons]
    by_cases h : pairLiq q > pairLiq p0
    · rw [if_pos h]
      rcases ih q with h1 | h1
      · right; rw [primaryPair] at h1; rw [h1]; exact List.mem_cons_self q qs
      · right; rw [primaryPair] at h1; exact List.mem_cons_of_mem q h1
    · rw [if_neg h]
      rcases ih p0 with h1 | h1
      · left; rw [primaryPair] at h1; exact h1
      · right; rw [primaryPair] at h1; exact List.mem_cons_of_mem q h1

theorem pairLiq_le_primary (p0 : DexPair) (ps : List DexPair) :
    pairLiq p0 ≤ pairLiq (primaryPair p0 ps) ∧
    ∀ p ∈ ps, pairLiq p ≤ pairLiq (primaryPair p0 ps) := by
  induction ps generalizing p0 with
  | nil => exact ⟨le_refl _, by simp⟩
  | cons q qs ih =>
    unfold primaryPair
    simp only [List.foldl_cons]
    by_cases h : pairLiq q > pairLiq p0
    · rw [if_pos h]
      have hq := ih q
      rw [primaryPair] at hq
      refine ⟨le_trans (le_of_lt h) hq.1, ?_⟩
      intro p hp
      rcases List.mem_cons.mp hp with rfl | hp2
      · exact hq.1
      · exact hq.2 p hp2
    · rw [if_neg h]
      have hq := ih p0
      rw [primaryPair] at hq
      refine ⟨hq.1, ?_⟩
      intro p hp
      rcases List.mem_cons.mp hp with rfl | hp2
      · exact le_trans (le_of_not_lt h) hq.1
      · exact hq.2 p hp2

/-- Claim C5: for every non-empty pair list, the pair getPrice selects as
primary is one of the pairs and its liquidity (missing read as 0) is maximal
over the list, and - whenever the primary pair carries a positive parsed
price - getPrice reports exactly that pair's priceUsd and 24h change. -/
theorem getPrice_selects_max_liquidity (p0 : DexPair) (rest : List DexPair) :
    primaryPair p0 (p0 :: rest) ∈ p0 :: rest ∧
    (∀ p ∈ p0 :: rest, pairLiq p ≤ pairLiq (primaryPair p0 (p0 :: rest))) ∧
    (∀ v : ℚ, (primaryPair p0 (p0 :: rest)).priceUsd = some v → 0 < v →
      getPrice (.success (p0 :: rest)) =
        ⟨v, (primaryPair p0 (p0 :: rest)).priceChangeH24.getD 0⟩) := by
  refine ⟨?_, ?_, ?_⟩
  · rcases primaryPair_mem p0 (p0 :: rest) with h | h
    · rw [h]; exact List.mem_cons_self p0 rest
    · exact h
  · intro p hp
    rcases List.mem_cons.mp hp with rfl | hp2
    · exact (pairLiq_le_primary p (p :: rest)).1
    · exact (pairLiq_le_primary p0 (p0 :: rest)).2 p (List.mem_cons_of_mem p0 hp2)
  · intro v hv hpos
    simp only [getPrice, hv, Option.getD_some]
    rw [if_neg (not_le.mpr hpos)]

/-- Witness for C5 on two concrete pairs, the second with more liquidity. -/
theorem getPrice_selects_max_liquidity_witness :
    getPrice (.success [⟨some 5, some 1, some 2⟩, ⟨some 10, some 3, none⟩]) =
      ⟨3, (primaryPair ⟨some 5, some 1, some 2⟩
        [⟨some 5, some 1, some 2⟩, ⟨some 10, some 3, none⟩]).priceChangeH24.getD 0⟩ :=
  (getPrice_selects_max_liquidity ⟨some 5, some 1, some 2⟩
    [⟨some 10, some 3, none⟩]).2.2 3 (by decide) (by decide)

/-- The upstream outcomes that leave getPrice without usable market data:
a rejected fetch or parse, a non-ok HTTP status, an empty pair list, or a
primary pair whose parsed price is missing, unparsable or non-positive. -/
def priceUnavailable : PriceFetch → Prop
  | .failure _ => True
  | .httpError _ => True
  | .success [] => True
  | .success (p0 :: rest) => (primaryPair p0 (p0 :: rest)).priceUsd.getD 0 ≤ 0

/-- Claim C6: getPrice never throws to the caller - it is total into
PriceData - and on every missing-data outcome (non-OK status, empty pair
list, unparsable or non-positive price, network failure) it resolves with
the unavailable sentinel of zero price and zero change, while any other
outcome carries a positive price. -/
theorem getPrice_total_unavailable (f : PriceFetch) :
    (priceUnavailable f → getPrice f = ⟨0, 0⟩) ∧
    (¬ priceUnavailable f → 0 < (getPrice f).priceUsd) := by
  cases f with
  | failure msg => exact ⟨fun _ => rfl, fun h => absurd trivial h⟩
  | httpError s => exact ⟨fun _ => rfl, fun h => absurd trivial h⟩
  | success ps =>
    cases ps with
    | nil => exact ⟨fun _ => rfl, fun h => absurd trivial h⟩
    | cons p0 rest =>
      constructor
      · intro h
        simp only [priceUnavailable] at h
        simp only [getPrice]
        rw [if_pos h]
      · intro h
        simp only [priceUnavailable] at h
        simp only [getPrice]
        rw [if_neg h]
        simpa using lt_of_not_le h

/-- Witness for C6 at a network failure and at a successful fetch. -/
theorem getPrice_total_unavailable_witness :
    getPrice (.failure "network down") = ⟨0, 0⟩ ∧
    0 < (getPrice (.success [⟨some 5, some 2, some 1⟩])).priceUsd :=
  ⟨(getPrice_total_unavailable (.failure "network down")).1 trivial,
   (getPrice_total_unavailable (.success [⟨some 5, some 2, some 1⟩])).2
     (by simp [priceUnavailable, primaryPair, pairLiq])⟩

/-- The colors object of the RiskBadge component
(src/frontend/src/app/components/RiskBadge.tsx lines 9-14). Its keys are the
capitalized tier names. -/
def riskBadgeColors : List (String × String) :=
  [("Low", "bg-[#16A34A]/10 text-[#16A34A] border-[#16A34A]/20"),
   ("Medium", "bg-[#CA8A04]/10 text-[#CA8A04] border-[#CA8A04]/20"),
   ("High", "bg-[#EA580C]/10 text-[#EA580C] border-[#EA580C]/20"),
   ("Extreme", "bg-[#DC2626]/10 text-[#DC2626] border-[#DC2626]/20")]

/-- The index access colors[tier] inside RiskBadge: none is JS undefined,
the result when the key is absent. -/
def riskBadgeColorLookup (tier : String) : Option String :=
  (riskBadgeColors.find? (fun e => e.1 == tier)).map Prod.snd

/-- Claim C9 fails on the code: for every RiskTier value the API client can
produce ("low", "medium", "high", "extreme", all lowercase per the RiskTier
type of api.ts, enforced by transformReport's toLowerCase), the RiskBadge
lookup colors[tier] is undefined, because the colors object is keyed by the
capitalized names; the badge class string then interpolates "undefined"
instead of a tier-specific color. -/
theorem riskBadgeColors_miss_api_tiers :
    ∀ t : RiskTier, riskBadgeColorLookup t.str = none := by
  intro t
  cases t <;> rfl

/-- HolderAnalysis as declared in the generated schema types
(src/unnamed/part_000 lines 36-40). -/
structure HolderAnalysis where
  holdersUnavailable : Bool
  top1Concentration : Option ℚ
  top10Concentration : Option ℚ

/-- The report page's holder section guard
(src/apps/web/app/report/[chain]/[address]/page.tsx line 289): the Holder
Analysis block is rendered only when holdersUnavailable is false. -/
def showHolderSection (h : HolderAnalysis) : Bool :=
  !h.holdersUnavailable

/-- Modelled from the spec: the Holder Distribution Analyzer of spec section
4.4 - the backend component implementing it is not under src/. With no
explorer credential or no holder data it reports holdersUnavailable and
leaves both concentrations null; otherwise it computes top1 and top10
concentration as percentages of total supply from the balances ranked
largest first. -/
def analyzeHolders (credential : Option String)
    (topBalances : Option (List ℚ)) (totalSupply : ℚ) : HolderAnalysis :=
  match credential, topBalances with
  | none, _ => ⟨true, none, none⟩
  | some _, none => ⟨true, none, none⟩
  | some _, some bs =>
    ⟨false,
     some (bs.headI / totalSupply * 100),
     some ((bs.take 10).sum / totalSupply * 100)⟩

/-- Modelled from the spec: the Market Fragility Risk combination of spec
section 4.5 rule 3 - the Scoring Engine implementing it is not under src/.
MFR is a weighted average of the market-fragility factors; an unknown factor
(here the holder-concentration factor, none when holders are unavailable) is
excluded from the average and its weight mass redistributes proportionally
over the remaining known factors. -/
def mfrScore (wLiq wRatio wPairs wConc : ℚ) (fLiq fRatio fPairs : ℚ)
    (fConc : Option ℚ) : ℚ :=
  match fConc with
  | some c => (wLiq * fLiq + wRatio * fRatio + wPairs * fPairs + wConc * c) /
      (wLiq + wRatio + wPairs + wConc)
  | none => (wLiq * fLiq + wRatio * fRatio + wPairs * fPairs) /
      (wLiq + wRatio + wPairs)

/-- Claim C7: a holder analysis with holdersUnavailable carries null in both
concentration fields; the report page shows the Holder Analysis section
exactly when holdersUnavailable is false; and with the concentration factor
unknown the MFR is the weighted average of the remaining known factors -
in particular it stays positive when a known factor is positive, so missing
holder data never zeroes MFR out. -/
theorem holdersUnavailable_invariant :
    (∀ (credential : Option String) (topBalances : Option (List ℚ))
        (totalSupply : ℚ),
      (analyzeHolders credential topBalances totalSupply).holdersUnavailable = true →
        (analyzeHolders credential topBalances totalSupply).top1Concentration = none ∧
        (analyzeHolders credential topBalances totalSupply).top10Concentration = none) ∧
    (∀ h : HolderAnalysis, showHolderSection h = true ↔ h.holdersUnavailable = false) ∧
    (∀ wLiq wRatio wPairs wConc fLiq fRatio fPairs : ℚ,
      mfrScore wLiq wRatio wPairs wConc fLiq fRatio fPairs none =
        (wLiq * fLiq + wRatio * fRatio + wPairs * fPairs) /
          (wLiq + wRatio + wPairs)) ∧
    (∀ wLiq wRatio wPairs wConc fLiq fRatio fPairs : ℚ,
      0 < wLiq → 0 < wRatio → 0 < wPairs →
      0 < fLiq → 0 ≤ fRatio → 0 ≤ fPairs →
      0 < mfrScore wLiq wRatio wPairs wConc fLiq fRatio fPairs none) := by
  refine ⟨?_, ?_, fun _ _ _ _ _ _ _ => rfl, ?_⟩
  · intro credential topBalances totalSupply h
    cases credential with
    | none => exact ⟨rfl, rfl⟩
    | some c =>
      cases topBalances with
      | none => exact ⟨rfl, rfl⟩
      | some bs => simp [analyzeHolders] at h
  · intro h
    cases hb : h.holdersUnavailable <;> simp [showHolderSection, hb]
  · intro wLiq wRatio wPairs wConc fLiq fRatio fPairs h1 h2 h3 h4 h5 h6
    unfold mfrScore
    positivity

/-- Witness for C7 on concrete inputs: missing credential, a rendered and a
hidden section, and unit weights with one positive factor. -/
theorem holdersUnavailable_invariant_witness :
    ((analyzeHolders none none 1).top1Concentration = none ∧
     (analyzeHolders none none 1).top10Concentration = none) ∧
    (showHolderSection ⟨false, some 1, some 2⟩ = true ↔
      (⟨false, some 1, some 2⟩ : HolderAnalysis).holdersUnavailable = false) ∧
    0 < mfrScore 1 1 1 1 1 0 0 none :=
  ⟨holdersUnavailable_invariant.1 none none 1 rfl,
   holdersUnavailable_invariant.2.1 ⟨false, some 1, some 2⟩,
   holdersUnavailable_invariant.2.2.2 1 1 1 1 1 0 0 (by decide) (by decide)
     (by decide) (by decide) (by decide) (by decide)⟩

/-- One analysis job record (spec section 3, AnalysisJob): its fingerprint,
its id, and whether it has reached a terminal state (completed or failed). -/
structure AnalysisJob where
  fp : String
  jobId : Nat
  terminal : Bool

/-- Modelled from the spec: the orchestrator's shared state (spec sections
4.6 and 5) - the backend component implementing it is not under src/. The
job table and the fresh-report cache are the only cross-worker shared state;
nextId is the id source for newly created jobs. -/
structure OrchState where
  jobs : List AnalysisJob
  nextId : Nat
  cacheFresh : List String

/-- A job that is non-terminal and belongs to the fingerprint. -/
def activeFor (fp : String) (j : AnalysisJob) : Bool :=
  j.fp == fp && !j.terminal

/-- The reply to an analyze request. -/
inductive AnalyzeReply where
  | completed : AnalyzeReply
  | processing : Nat → AnalyzeReply

/-- Modelled from the spec: requestAnalysis (spec section 4.6) as one atomic
check-and-set step against the shared state - the backend component
implementing it is not under src/. A fresh cached report answers completed;
otherwise an existing non-terminal job for the fingerprint answers with its
jobId and leaves the state unchanged; otherwise exactly one new queued job
is created. Atomicity of the compare-and-swap means any interleaving of
concurrent calls is a sequence of these steps. -/
def requestAnalysis (s : OrchState) (fp : String) : AnalyzeReply × OrchState :=
  if fp ∈ s.cacheFresh then (.completed, s)
  else
    match s.jobs.find? (activeFor fp) with
    | some j => (.processing j.jobId, s)
    | none =>
      (.processing s.nextId,
       { s with jobs := s.jobs ++ [⟨fp, s.nextId, false⟩],
                nextId := s.nextId + 1 })

/-- The single-flight invariant: at most one non-terminal job per
fingerprint. -/
def singleFlight (s : OrchState) : Prop :=
  ∀ fp : String, (s.jobs.filter (activeFor fp)).length ≤ 1

theorem find?_append_of_none {α : Type} (p : α → Bool) (l1 l2 : List α)
    (h : l1.find? p = none) : (l1 ++ l2).find? p = l2.find? p := by
  induction l1 with
  | nil => rfl
  | cons a l ih =>
    rw [List.find?_cons] at h
    rw [List.cons_append, List.find?_cons]
    cases hpa : p a with
    | true => simp [hpa] at h
    | false =>
      simp only [hpa] at h ⊢
      exact ih h

/-- Claim C8: analysis is strictly single-flighted. The atomic check-and-set
preserves the at-most-one-non-terminal-job invariant for every fingerprint,
and when two analyze calls for one fingerprint land (in either serialization
of the atomic steps) while no fresh cached report and no in-flight job
exist, exactly one job is created, it is the only active job for the
fingerprint, and both callers receive the same jobId. -/
theorem requestAnalysis_single_flight :
    (∀ (s : OrchState) (fp : String), singleFlight s →
      singleFlight (requestAnalysis s fp).2) ∧
    (∀ (s : OrchState) (fp : String),
      fp ∉ s.cacheFresh → s.jobs.find? (activeFor fp) = none →
      ∃ id : Nat,
        (requestAnalysis s fp).1 = .processing id ∧
        (requestAnalysis (requestAnalysis s fp).2 fp).1 = .processing id ∧
        ((requestAnalysis (requestAnalysis s fp).2 fp).2).jobs =
          ((requestAnalysis s fp).2).jobs ∧
        ((requestAnalysis s fp).2).jobs.length = s.jobs.length + 1 ∧
        (((requestAnalysis s fp).2).jobs.filter (activeFor fp)).length = 1) := by
  constructor
  · intro s fp hinv
    unfold requestAnalysis
    by_cases hc : fp ∈ s.cacheFresh
    · simpa [hc] using hinv
    · rw [if_neg hc]
      cases hf : s.jobs.find? (activeFor fp) with
      | some j => exact hinv
      | none =>
        intro g
        simp only [List.filter_append]
        have hempty : s.jobs.filter (activeFor fp) = [] :=
          List.filter_eq_nil_iff.mpr (fun a ha =>
            (List.find?_eq_none.mp hf) a ha)
        by_cases hg : g = fp
        · subst hg
          rw [hempty]
          simp [activeFor]
        · have hact : activeFor g (⟨fp, s.nextId, false⟩ : AnalysisJob) = false := by
            simp [activeFor]
            intro hfg
            exact absurd hfg.symm hg
          have hjneg : List.filter (activeFor g)
              [(⟨fp, s.nextId, false⟩ : AnalysisJob)] = [] := by
            simp [List.filter_cons, hact]
          rw [hjneg, List.append_nil]
          exact hinv g
  · intro s fp hc hf
    have hfind : (s.jobs ++ [(⟨fp, s.nextId, false⟩ : AnalysisJob)]).find?
        (activeFor fp) = some ⟨fp, s.nextId, false⟩ := by
      rw [find?_append_of_none _ _ _ hf]
      simp [List.find?_cons, activeFor]
    have hs1 : (requestAnalysis s fp).2 =
        { s with jobs := s.jobs ++ [⟨fp, s.nextId, false⟩],
                 nextId := s.nextId + 1 } := by
      simp [requestAnalysis, hc, hf]
    refine ⟨s.nextId, ?_, ?_, ?_, ?_, ?_⟩
    · simp [requestAnalysis, hc, hf]
    · rw [hs1]
      simp [requestAnalysis, hc, hfind]
    · rw [hs1]
      simp [requestAnalysis, hc, hfind]
    · simp [requestAnalysis, hc, hf]
    · simp only [requestAnalysis, hc, hf]
      have hempty : s.jobs.filter (activeFor fp) = [] :=
        List.filter_eq_nil_iff.mpr (fun a ha => (List.find?_eq_none.mp hf) a ha)
      simp [List.filter_append, hempty, activeFor]

/-- Witness for C8 from the empty orchestrator state. -/
theorem requestAnalysis_single_flight_witness :
    ∃ id : Nat,
      (requestAnalysis ⟨[], 0, []⟩ "ethereum:0xabc").1 = .processing id ∧
      (requestAnalysis (requestAnalysis ⟨[], 0, []⟩ "ethereum:0xabc").2
        "ethereum:0xabc").1 = .processing id :=
  match requestAnalysis_single_flight.2 ⟨[], 0, []⟩ "ethereum:0xabc"
    (by simp) rfl with
  | ⟨id, h1, h2, _, _, _⟩ => ⟨id, h1, h2⟩
